import Mathlib

/-!
Shallow embedding of the student face-recognition app (src/new.py).

The app registers students by face embedding and authenticates them by
cosine-similarity matching against previously registered embeddings.
Numeric vectors are modelled as lists of real numbers; the external
collaborators (the HTTP record store, the face-embedding extractor, the
float-to-text serializer `str` and the text-to-float parser
`np.fromstring`) are modelled as explicit parameters: a store response is
an `Except` value, serialization and parsing are function parameters.
-/

namespace StudentFace

/-- Dot product of two real vectors represented as lists (truncating at the
shorter length, as `np.dot` would for equal-length inputs; all vectors in
the app are 128-dimensional). -/
def dot : List ℝ → List ℝ → ℝ
  | a :: x, b :: y => a * b + dot x y
  | _, _ => 0

/-- Cosine similarity as computed by
`sklearn.metrics.pairwise.cosine_similarity`: the dot product divided by
the product of the Euclidean norms.  Division by zero yields 0 in Lean,
matching sklearn treating zero-norm rows as similarity 0. -/
noncomputable def cosineSim (u v : List ℝ) : ℝ :=
  dot u v / (Real.sqrt (dot u u) * Real.sqrt (dot v v))

/-- Index of the first occurrence of the maximum of a list, as computed by
`np.argmax` (line 52 of src/new.py): 0 on the empty list; otherwise the
head wins unless the maximum of the tail is strictly greater. -/
noncomputable def argmaxIdx : List ℝ → ℕ
  | [] => 0
  | [_] => 0
  | a :: b :: l =>
    if (b :: l).getD (argmaxIdx (b :: l)) 0 > a then argmaxIdx (b :: l) + 1 else 0

/-- The vector of cosine similarities between each known embedding and the
test embedding: `cosine_similarity(known_embs_np, test_emb).flatten()`
(line 51 of src/new.py). -/
noncomputable def simsOf (known_embs : List (List ℝ)) (test_emb : List ℝ) : List ℝ :=
  known_embs.map fun k => cosineSim k test_emb

/-- `find_match` (lines 46-55 of src/new.py): `None` on an empty known
list; otherwise the `argmax` index of the cosine similarities, returned
only if its similarity strictly exceeds `1 - threshold`.  The source gives
`threshold` the default value 0.4, and every call site uses that default;
here the call sites pass 0.4 explicitly. -/
noncomputable def find_match (known_embs : List (List ℝ)) (test_emb : List ℝ)
    (threshold : ℝ) : Option ℕ :=
  if known_embs.isEmpty then none
  else
    if (simsOf known_embs test_emb).getD (argmaxIdx (simsOf known_embs test_emb)) 0
        > 1 - threshold then
      some (argmaxIdx (simsOf known_embs test_emb))
    else none

/-- A record as stored in the remote sheet: the JSON row posted on
registration (lines 114-119 of src/new.py) and fetched back by
`fetch_registered`.  All four fields are text; the embedding travels as
the comma-joined `encoding` string. -/
structure Rec where
  timestamp : String
  student_id : String
  name : String
  encoding : String
deriving DecidableEq

/-- The four accumulators of `fetch_registered`: the `names`, `embs` and
`full` lists built in lockstep (lines 21-28 of src/new.py) plus the
warnings emitted for dropped records (lines 30 and 32). -/
structure Parsed where
  names : List String
  embs : List (List ℝ)
  full : List Rec
  warnings : List String

/-- The per-record loop of `fetch_registered` (lines 22-32 of src/new.py).
`parse` models `np.fromstring(d["encoding"], sep=",")`: `none` when the
inner `try` raises (missing or malformed field), `some v` when it yields a
vector `v`.  A vector of size 128 is admitted; any other size is dropped
with a warning; a parse failure is dropped with a warning.  Processing
always continues with the remaining records. -/
def processRecords (parse : String → Option (List ℝ)) : List Rec → Parsed
  | [] => ⟨[], [], [], []⟩
  | d :: ds =>
    match parse d.encoding with
    | some emb =>
      if emb.length = 128 then
        ⟨d.name :: (processRecords parse ds).names,
         emb :: (processRecords parse ds).embs,
         d :: (processRecords parse ds).full,
         (processRecords parse ds).warnings⟩
      else
        ⟨(processRecords parse ds).names, (processRecords parse ds).embs,
         (processRecords parse ds).full,
         ("Skipped corrupted encoding for: " ++ d.name) :: (processRecords parse ds).warnings⟩
    | none =>
      ⟨(processRecords parse ds).names, (processRecords parse ds).embs,
       (processRecords parse ds).full,
       ("Failed to parse encoding for: " ++ d.name) :: (processRecords parse ds).warnings⟩

/-- Result of `fetch_registered`: the three lockstep lists, the per-record
warnings, and the single store-level error message shown when the whole
fetch fails (line 35 of src/new.py). -/
structure FetchResult where
  names : List String
  embs : List (List ℝ)
  full : List Rec
  warnings : List String
  errorMsg : Option String

/-- `fetch_registered` (lines 16-36 of src/new.py).  The store response is
modelled as `Except`: `.ok data` is a parsed JSON list, `.error m` is any
store-level failure (network error, timeout, non-2xx status, unparsable
body).  On failure the function shows one error message and returns the
empty triple `[], [], []`. -/
def fetch_registered (parse : String → Option (List ℝ))
    (resp : Except String (List Rec)) : FetchResult :=
  match resp with
  | .ok data =>
    ⟨(processRecords parse data).names, (processRecords parse data).embs,
     (processRecords parse data).full, (processRecords parse data).warnings, none⟩
  | .error m => ⟨[], [], [], [], some ("Failed to fetch registered users: " ++ m)⟩

/-- The Refresh path (lines 73-78 of src/new.py): the cached fetch is
cleared and `names_known, embs_known, full_data = fetch_registered()` is
re-run.  The previously held `prior` snapshot is discarded by the
assignment, whatever the fetch returns. -/
def refreshKnown (parse : String → Option (List ℝ))
    (resp : Except String (List Rec)) (prior : FetchResult) : FetchResult :=
  fetch_registered parse resp

/-- Python `str.strip()`: remove leading and trailing whitespace.  Modelled
directly over the character list of the string (the Python builtin is
external to the repository). -/
def pyStrip (s : String) : String :=
  String.mk (((s.data.dropWhile Char.isWhitespace).reverse.dropWhile
    Char.isWhitespace).reverse)

/-- Outcome displayed by the Register button handler (lines 104-123 of
src/new.py): the two validation error messages, the skip message naming
the matched student, or the unconditional success message. -/
inductive RegOutcome
  | errNoFace
  | errEmptyFields
  | skipped (matchedName : String)
  | registered
deriving DecidableEq

/-- True exactly on the `skipped` outcome. -/
def RegOutcome.isSkipped : RegOutcome → Bool
  | .skipped _ => true
  | _ => false

/-- Everything observable about one run of the Register button handler:
the displayed outcome, the rows handed to `post_student` (in order), the
error messages shown by `post_student` itself (line 43 of src/new.py), and
the refreshed known set when the handler re-fetched (lines 122-123). -/
structure RegResult where
  outcome : RegOutcome
  posts : List Rec
  uploadErrors : List String
  newKnown : Option FetchResult

/-- The Register button handler (lines 104-123 of src/new.py).  `emb` is
the embedding extracted upstream (`none` when no face was detected);
`ser` models `",".join(map(str, emb.tolist()))`, the external
float-to-decimal-text serializer; `postResult` is what the store does with
the POST (`requests.post(...).raise_for_status()`); `refetch` is the store
response to the refresh performed after a successful registration.  Note
that `post_student` swallows its exception (lines 40-43), so the handler
reaches the success message and the refetch even when the POST failed. -/
noncomputable def registerFlow (names_known : List String) (embs_known : List (List ℝ))
    (emb : Option (List ℝ)) (name sid now : String)
    (ser : List ℝ → String) (postResult : Except String Unit)
    (parse : String → Option (List ℝ)) (refetch : Except String (List Rec)) :
    RegResult :=
  match emb with
  | none => ⟨.errNoFace, [], [], none⟩
  | some e =>
    if pyStrip name = "" ∨ pyStrip sid = "" then ⟨.errEmptyFields, [], [], none⟩
    else
      match find_match embs_known e 0.4 with
      | some idx => ⟨.skipped (names_known.getD idx ""), [], [], none⟩
      | none =>
        ⟨.registered,
         [⟨now, pyStrip sid, pyStrip name, ser e⟩],
         (match postResult with
          | .ok _ => []
          | .error m => ["Upload failed: " ++ m]),
         some (fetch_registered parse refetch)⟩

/-- Outcome displayed by the Login button handler (lines 145-154 of
src/new.py). -/
inductive LoginOutcome
  | emptyRegistry
  | authenticated (name : String)
  | rejected
deriving DecidableEq

/-- The Login button handler (lines 145-154 of src/new.py).  The button is
disabled while no embedding is present, so the handler always runs with an
embedding `e`.  An empty known list yields the distinct
"No students registered" outcome before any matching is attempted. -/
noncomputable def loginHandler (names_known : List String) (embs_known : List (List ℝ))
    (e : List ℝ) : LoginOutcome :=
  if embs_known.isEmpty then .emptyRegistry
  else
    match find_match embs_known e 0.4 with
    | some idx => .authenticated (names_known.getD idx "")
    | none => .rejected

/-! ### Helper lemmas about the matcher -/

lemma argmaxIdx_lt (l : List ℝ) (a : ℝ) : argmaxIdx (a :: l) < l.length + 1 := by
  induction l generalizing a with
  | nil => simp [argmaxIdx]
  | cons b t ih =>
    rw [argmaxIdx]
    split
    · exact Nat.succ_lt_succ (ih b)
    · exact Nat.succ_pos _

lemma argmaxIdx_max (l : List ℝ) (a : ℝ) :
    ∀ j, j < l.length + 1 →
      (a :: l).getD j 0 ≤ (a :: l).getD (argmaxIdx (a :: l)) 0 := by
  induction l generalizing a with
  | nil =>
    intro j hj
    simp only [List.length_nil] at hj
    interval_cases j
    simp [argmaxIdx]
  | cons b t ih =>
    intro j hj
    rw [argmaxIdx]
    split
    case isTrue h =>
      rcases j with _ | k
      · simpa using le_of_lt h
      · simpa using ih b k (by simpa using hj)
    case isFalse h =>
      push_neg at h
      rcases j with _ | k
      · simp
      · calc (a :: b :: t).getD (k + 1) 0 = (b :: t).getD k 0 := by simp
          _ ≤ (b :: t).getD (argmaxIdx (b :: t)) 0 := ih b k (by simpa using hj)
          _ ≤ a := h
          _ = (a :: b :: t).getD 0 0 := by simp

lemma argmaxIdx_first (l : List ℝ) (a : ℝ) :
    ∀ j, j < argmaxIdx (a :: l) →
      (a :: l).getD j 0 < (a :: l).getD (argmaxIdx (a :: l)) 0 := by
  induction l generalizing a with
  | nil => intro j hj; simp [argmaxIdx] at hj
  | cons b t ih =>
    intro j hj
    rw [argmaxIdx] at hj ⊢
    by_cases h : ((b :: t).getD (argmaxIdx (b :: t)) 0 > a)
    · rw [if_pos h] at hj ⊢
      rcases j with _ | k
      · simpa using h
      · have hk : k < argmaxIdx (b :: t) := by omega
        simpa using ih b k hk
    · rw [if_neg h] at hj
      omega

lemma argmaxIdx_eq_of (l : List ℝ) (a : ℝ) (i : ℕ) (hi : i < l.length + 1)
    (hmax : ∀ j, j < l.length + 1 → (a :: l).getD j 0 ≤ (a :: l).getD i 0)
    (hfirst : ∀ j, j < i → (a :: l).getD j 0 < (a :: l).getD i 0) :
    argmaxIdx (a :: l) = i := by
  have hmlt : argmaxIdx (a :: l) < l.length + 1 := argmaxIdx_lt l a
  have h1 : (a :: l).getD i 0 ≤ (a :: l).getD (argmaxIdx (a :: l)) 0 :=
    argmaxIdx_max l a i hi
  have h2 : (a :: l).getD (argmaxIdx (a :: l)) 0 ≤ (a :: l).getD i 0 :=
    hmax (argmaxIdx (a :: l)) hmlt
  rcases lt_trichotomy (argmaxIdx (a :: l)) i with h | h | h
  · exact absurd (hfirst (argmaxIdx (a :: l)) h) (by linarith)
  · exact h
  · exact absurd (argmaxIdx_first l a i h) (by linarith)

lemma simsOf_cons (k : List ℝ) (ks : List (List ℝ)) (e : List ℝ) :
    simsOf (k :: ks) e = cosineSim k e :: simsOf ks e := by
  simp [simsOf]

lemma simsOf_length (known : List (List ℝ)) (e : List ℝ) :
    (simsOf known e).length = known.length := by
  simp [simsOf]

lemma simsOf_getD (known : List (List ℝ)) (e : List ℝ) :
    ∀ j, j < known.length →
      (simsOf known e).getD j 0 = cosineSim (known.getD j []) e := by
  induction known with
  | nil => intro j hj; simp at hj
  | cons k ks ih =>
    intro j hj
    rcases j with _ | m
    · simp [simsOf]
    · simpa [simsOf_cons] using ih m (by simpa using hj)

lemma find_match_nil (e : List ℝ) (th : ℝ) : find_match [] e th = none := by
  simp [find_match]

lemma find_match_cons (k : List ℝ) (ks : List (List ℝ)) (e : List ℝ) (th : ℝ) :
    find_match (k :: ks) e th =
      if (simsOf (k :: ks) e).getD (argmaxIdx (simsOf (k :: ks) e)) 0 > 1 - th then
        some (argmaxIdx (simsOf (k :: ks) e))
      else none := by
  simp [find_match]

lemma find_match_some_iff (known : List (List ℝ)) (e : List ℝ) (th : ℝ) (i : ℕ) :
    find_match known e th = some i ↔
      (i < known.length ∧
       1 - th < cosineSim (known.getD i []) e ∧
       (∀ j, j < known.length →
         cosineSim (known.getD j []) e ≤ cosineSim (known.getD i []) e) ∧
       (∀ j, j < i →
         cosineSim (known.getD j []) e < cosineSim (known.getD i []) e)) := by
  cases known with
  | nil => simp [find_match_nil]
  | cons k ks =>
    have hlen : (simsOf ks e).length = ks.length := simsOf_length ks e
    constructor
    · intro h
      rw [find_match_cons] at h
      split_ifs at h with hgt
      case pos =>
        injection h with h
        subst h
        have hbound : argmaxIdx (simsOf (k :: ks) e) < (k :: ks).length := by
          have := argmaxIdx_lt (simsOf ks e) (cosineSim k e)
          rw [← simsOf_cons] at this
          simpa [hlen] using this
        refine ⟨hbound, ?_, ?_, ?_⟩
        · rw [← simsOf_getD (k :: ks) e _ hbound]
          exact hgt
        · intro j hj
          rw [← simsOf_getD (k :: ks) e j hj, ← simsOf_getD (k :: ks) e _ hbound]
          have := argmaxIdx_max (simsOf ks e) (cosineSim k e) j
            (by simpa [hlen] using hj)
          rw [← simsOf_cons] at this
          exact this
        · intro j hj
          have hjb : j < (k :: ks).length := lt_trans hj hbound
          rw [← simsOf_getD (k :: ks) e j hjb, ← simsOf_getD (k :: ks) e _ hbound]
          have := argmaxIdx_first (simsOf ks e) (cosineSim k e) j
            (by rw [← simsOf_cons]; exact hj)
          rw [← simsOf_cons] at this
          exact this
    · rintro ⟨hi, hth, hmax, hfirst⟩
      have harg : argmaxIdx (simsOf (k :: ks) e) = i := by
        rw [simsOf_cons]
        apply argmaxIdx_eq_of
        · simpa [hlen] using hi
        · intro j hj
          rw [← simsOf_cons, simsOf_getD (k :: ks) e j (by simpa [hlen] using hj),
            simsOf_getD (k :: ks) e i hi]
          exact hmax j (by simpa [hlen] using hj)
        · intro j hj
          have hjb : j < (k :: ks).length := lt_trans hj hi
          rw [← simsOf_cons, simsOf_getD (k :: ks) e j hjb,
            simsOf_getD (k :: ks) e i hi]
          exact hfirst j hj
      rw [find_match_cons, harg, simsOf_getD (k :: ks) e i hi, if_pos hth]

lemma find_match_none_iff (known : List (List ℝ)) (e : List ℝ) (th : ℝ) :
    find_match known e th = none ↔
      ∀ j, j < known.length → cosineSim (known.getD j []) e ≤ 1 - th := by
  cases known with
  | nil => simp [find_match_nil]
  | cons k ks =>
    have hlen : (simsOf ks e).length = ks.length := simsOf_length ks e
    have hbound : argmaxIdx (simsOf (k :: ks) e) < (k :: ks).length := by
      have := argmaxIdx_lt (simsOf ks e) (cosineSim k e)
      rw [← simsOf_cons] at this
      simpa [hlen] using this
    rw [find_match_cons]
    split_ifs with hgt
    case pos =>
      rw [simsOf_getD (k :: ks) e _ hbound] at hgt
      constructor
      · intro h; exact absurd h (by simp)
      · intro hall
        exact absurd hgt (not_lt.2 (hall _ hbound))
    case neg =>
      push_neg at hgt
      rw [simsOf_getD (k :: ks) e _ hbound] at hgt
      constructor
      · intro _ j hj
        have h1 : (simsOf (k :: ks) e).getD j 0 ≤
            (simsOf (k :: ks) e).getD (argmaxIdx (simsOf (k :: ks) e)) 0 := by
          have := argmaxIdx_max (simsOf ks e) (cosineSim k e) j
            (by simpa [hlen] using hj)
          rw [← simsOf_cons] at this
          exact this
        rw [simsOf_getD (k :: ks) e j hj] at h1
        rw [simsOf_getD (k :: ks) e _ hbound] at h1
        linarith
      · intro _; rfl

lemma dot_self_nonneg (u : List ℝ) : 0 ≤ dot u u := by
  induction u with
  | nil => simp [dot]
  | cons a t ih =>
    have ha := mul_self_nonneg a
    simp only [dot]
    linarith

lemma cosineSim_self (e : List ℝ) (h : dot e e ≠ 0) : cosineSim e e = 1 := by
  rw [cosineSim, Real.mul_self_sqrt (dot_self_nonneg e), div_self h]

lemma find_match_of_present (known : List (List ℝ)) (e : List ℝ) (th : ℝ) (i : ℕ)
    (hi : i < known.length) (hgd : known.getD i [] = e)
    (hnz : dot e e ≠ 0) (hth : 0 < th) :
    ∃ j, find_match known e th = some j ∧
      cosineSim e e ≤ cosineSim (known.getD j []) e := by
  have hone : cosineSim (known.getD i []) e = 1 := by
    rw [hgd]; exact cosineSim_self e hnz
  have hnotnone : find_match known e th ≠ none := by
    intro hn
    rw [find_match_none_iff] at hn
    have hle := hn i hi
    rw [hone] at hle
    linarith
  obtain ⟨j, hj⟩ := Option.ne_none_iff_exists'.mp hnotnone
  refine ⟨j, hj, ?_⟩
  have hprops := (find_match_some_iff known e th j).mp hj
  have hji := hprops.2.2.1 i hi
  rw [hone] at hji
  rw [cosineSim_self e hnz]
  exact hji

/-! ### Helper lemmas about the fetch pipeline -/

lemma processRecords_names_length_eq_embs (parse : String → Option (List ℝ)) :
    ∀ data : List Rec,
      (processRecords parse data).names.length = (processRecords parse data).embs.length := by
  intro data
  induction data with
  | nil => rfl
  | cons d ds ih =>
    cases hp : parse d.encoding with
    | some emb =>
      by_cases hl : emb.length = 128 <;> simp [processRecords, hp, hl, ih]
    | none => simp [processRecords, hp, ih]

lemma processRecords_append_names (parse : String → Option (List ℝ))
    (xs ys : List Rec) :
    (processRecords parse (xs ++ ys)).names =
      (processRecords parse xs).names ++ (processRecords parse ys).names := by
  induction xs with
  | nil => simp [processRecords]
  | cons d ds ih =>
    cases hp : parse d.encoding with
    | some emb =>
      by_cases hl : emb.length = 128 <;> simp [processRecords, hp, hl, ih]
    | none => simp [processRecords, hp, ih]

lemma processRecords_append_embs (parse : String → Option (List ℝ))
    (xs ys : List Rec) :
    (processRecords parse (xs ++ ys)).embs =
      (processRecords parse xs).embs ++ (processRecords parse ys).embs := by
  induction xs with
  | nil => simp [processRecords]
  | cons d ds ih =>
    cases hp : parse d.encoding with
    | some emb =>
      by_cases hl : emb.length = 128 <;> simp [processRecords, hp, hl, ih]
    | none => simp [processRecords, hp, ih]

lemma processRecords_append_full (parse : String → Option (List ℝ))
    (xs ys : List Rec) :
    (processRecords parse (xs ++ ys)).full =
      (processRecords parse xs).full ++ (processRecords parse ys).full := by
  induction xs with
  | nil => simp [processRecords]
  | cons d ds ih =>
    cases hp : parse d.encoding with
    | some emb =>
      by_cases hl : emb.length = 128 <;> simp [processRecords, hp, hl, ih]
    | none => simp [processRecords, hp, ih]

lemma processRecords_append_warnings (parse : String → Option (List ℝ))
    (xs ys : List Rec) :
    (processRecords parse (xs ++ ys)).warnings =
      (processRecords parse xs).warnings ++ (processRecords parse ys).warnings := by
  induction xs with
  | nil => simp [processRecords]
  | cons d ds ih =>
    cases hp : parse d.encoding with
    | some emb =>
      by_cases hl : emb.length = 128 <;> simp [processRecords, hp, hl, ih]
    | none => simp [processRecords, hp, ih]

lemma processRecords_single_ok (parse : String → Option (List ℝ)) (d : Rec)
    (v : List ℝ) (hp : parse d.encoding = some v) (hl : v.length = 128) :
    processRecords parse [d] = ⟨[d.name], [v], [d], []⟩ := by
  simp [processRecords, hp, hl]

lemma processRecords_single_dropped (parse : String → Option (List ℝ)) (d : Rec)
    (hbad : parse d.encoding = none ∨
      ∃ v, parse d.encoding = some v ∧ v.length ≠ 128) :
    (processRecords parse [d]).names = [] ∧
    (processRecords parse [d]).embs = [] ∧
    (processRecords parse [d]).full = [] ∧
    (processRecords parse [d]).warnings.length = 1 := by
  rcases hbad with hp | ⟨v, hp, hl⟩
  · simp [processRecords, hp]
  · simp [processRecords, hp, hl]

lemma getD_append_self (xs : List (List ℝ)) (e : List ℝ) :
    (xs ++ [e]).getD xs.length [] = e := by
  induction xs with
  | nil => rfl
  | cons a t ih => simpa using ih

lemma dot_replicate_one (n : ℕ) :
    dot (List.replicate n (1 : ℝ)) (List.replicate n (1 : ℝ)) = n := by
  induction n with
  | zero => simp [dot]
  | succ m ih =>
    simp only [List.replicate_succ, dot, ih]
    push_cast
    ring

/-! ### Claims -/

/-- C3: on an empty known list `find_match` returns no match without
error; on any known list it returns index `i` exactly when `i` is in
bounds, the cosine similarity of entry `i` to the query strictly exceeds
`1 - threshold`, entry `i` attains the maximum similarity, and `i` is the
first index to attain it (ties broken by first occurrence in iteration
order); it returns no match exactly when every similarity is at most
`1 - threshold`. -/
theorem C3_find_match_spec (known : List (List ℝ)) (e : List ℝ) (th : ℝ) (i : ℕ) :
    find_match [] e th = none ∧
    (find_match known e th = some i ↔
      (i < known.length ∧
       1 - th < cosineSim (known.getD i []) e ∧
       (∀ j, j < known.length →
         cosineSim (known.getD j []) e ≤ cosineSim (known.getD i []) e) ∧
       (∀ j, j < i →
         cosineSim (known.getD j []) e < cosineSim (known.getD i []) e))) ∧
    (find_match known e th = none ↔
      ∀ j, j < known.length → cosineSim (known.getD j []) e ≤ 1 - th) :=
  ⟨find_match_nil e th, find_match_some_iff known e th i,
    find_match_none_iff known e th⟩

/-- C4 counterexample: the embedding `[1]` is present in `[[1], [1]]` at
index 1 and the threshold 2/5 lies in (0,1], yet `find_match` returns
index 0 — the first occurrence of the duplicate — not index 1 as the
claim requires. -/
theorem C4_cex :
    ([[(1 : ℝ)], [1]] : List (List ℝ)).getD 1 [] = [1] ∧
    (0 : ℝ) < 2 / 5 ∧ (2 / 5 : ℝ) ≤ 1 ∧
    find_match [[(1 : ℝ)], [1]] [1] (2 / 5) = some 0 ∧
    (some 0 : Option ℕ) ≠ some 1 := by
  refine ⟨by simp, by norm_num, by norm_num, ?_, by simp⟩
  have h1 : cosineSim [(1 : ℝ)] [1] = 1 := by
    norm_num [cosineSim, dot, Real.sqrt_one]
  have hsims : simsOf [[(1 : ℝ)], [1]] [1] = [1, 1] := by
    simp [simsOf, h1]
  have ha : argmaxIdx [(1 : ℝ), 1] = 0 := by norm_num [argmaxIdx]
  rw [find_match_cons, hsims, ha]
  norm_num

/-- C4 (amended): if an embedding `e` with nonzero self-dot-product is
present in `known` at index `i` and the threshold lies in (0,1], then
`find_match` returns a match — some index whose similarity is at least
the self-similarity of `e` and which is the first index attaining the
maximal similarity.  The returned index equals `i` only when no earlier
entry ties or exceeds it; with a duplicate of `e` at an earlier index,
that earlier index is returned instead. -/
theorem C4_present_is_matched (known : List (List ℝ)) (e : List ℝ) (th : ℝ)
    (i : ℕ) (hi : i < known.length) (hgd : known.getD i [] = e)
    (hnz : dot e e ≠ 0) (hth0 : 0 < th) (hth1 : th ≤ 1) :
    ∃ j, find_match known e th = some j ∧
      cosineSim e e ≤ cosineSim (known.getD j []) e ∧
      ∀ m, m < j → cosineSim (known.getD m []) e <
        cosineSim (known.getD j []) e := by
  obtain ⟨j, hj, hge⟩ := find_match_of_present known e th i hi hgd hnz hth0
  exact ⟨j, hj, hge, ((find_match_some_iff known e th j).mp hj).2.2.2⟩

/-- Witness for C4 (amended) at `known = [[1, 0]]`, `e = [1, 0]`, `i = 0`,
`threshold = 1/2`. -/
theorem C4_witness :
    ∃ j, find_match [[(1 : ℝ), 0]] [1, 0] (1 / 2) = some j ∧
      cosineSim [(1 : ℝ), 0] [1, 0] ≤
        cosineSim (([[(1 : ℝ), 0]] : List (List ℝ)).getD j []) [1, 0] ∧
      ∀ m, m < j → cosineSim (([[(1 : ℝ), 0]] : List (List ℝ)).getD m []) [1, 0] <
        cosineSim (([[(1 : ℝ), 0]] : List (List ℝ)).getD j []) [1, 0] :=
  C4_present_is_matched [[(1 : ℝ), 0]] [1, 0] (1 / 2) 0 (by simp) (by simp)
    (by norm_num [dot]) (by norm_num) (by norm_num)

/-- C5: registration fails with the no-face validation error when the
embedding is absent, and with the empty-fields validation error when the
stripped name or id is empty; in both cases nothing is posted to the
store, no record is constructed, and no refresh happens. -/
theorem C5_validation_no_post (names : List String) (embs : List (List ℝ))
    (e : List ℝ) (name sid name2 sid2 now : String) (ser : List ℝ → String)
    (post : Except String Unit) (parse : String → Option (List ℝ))
    (refetch : Except String (List Rec))
    (h : pyStrip name = "" ∨ pyStrip sid = "") :
    registerFlow names embs none name2 sid2 now ser post parse refetch =
      ⟨RegOutcome.errNoFace, [], [], none⟩ ∧
    registerFlow names embs (some e) name sid now ser post parse refetch =
      ⟨RegOutcome.errEmptyFields, [], [], none⟩ := by
  constructor
  · rfl
  · simp only [registerFlow]
    rw [if_pos h]

/-- Witness for C5 at whitespace-only name and missing embedding. -/
theorem C5_witness :
    (pyStrip "  " = "" ∨ pyStrip "1" = "") ∧
    (registerFlow ["a"] [[1]] none " Bob " "2" "t" (fun v => "enc")
        (Except.ok ()) (fun s => none) (Except.ok []) =
      ⟨RegOutcome.errNoFace, [], [], none⟩ ∧
     registerFlow ["a"] [[1]] (some [1]) "  " "1" "t" (fun v => "enc")
        (Except.ok ()) (fun s => none) (Except.ok []) =
      ⟨RegOutcome.errEmptyFields, [], [], none⟩) :=
  ⟨Or.inl (by decide),
    C5_validation_no_post ["a"] [[1]] [1] "  " "1" " Bob " "2" "t"
      (fun v => "enc") (Except.ok ()) (fun s => none) (Except.ok [])
      (Or.inl (by decide))⟩

/-- C6: with a present embedding and nonempty stripped name and id, the
handler posts a record exactly when the matcher finds no match; on a match
the outcome is Skipped with the matched name and nothing is posted; on no
match the posted row carries the given timestamp, stripped id and name,
and the serialized embedding, and the outcome is Registered. -/
theorem C6_register_policy (names : List String) (embs : List (List ℝ))
    (e : List ℝ) (name sid now : String) (ser : List ℝ → String)
    (post : Except String Unit) (parse : String → Option (List ℝ))
    (refetch : Except String (List Rec))
    (hn : pyStrip name ≠ "") (hs : pyStrip sid ≠ "") :
    ((registerFlow names embs (some e) name sid now ser post parse
        refetch).posts ≠ [] ↔ find_match embs e 0.4 = none) ∧
    registerFlow names embs (some e) name sid now ser post parse refetch =
      (match find_match embs e 0.4 with
       | some idx => ⟨RegOutcome.skipped (names.getD idx ""), [], [], none⟩
       | none =>
         ⟨RegOutcome.registered, [⟨now, pyStrip sid, pyStrip name, ser e⟩],
          (match post with
           | .ok _ => []
           | .error m => ["Upload failed: " ++ m]),
          some (fetch_registered parse refetch)⟩) := by
  have hcond : ¬(pyStrip name = "" ∨ pyStrip sid = "") := by
    rintro (h | h)
    exacts [hn h, hs h]
  constructor
  · cases hm : find_match embs e 0.4 <;> simp [registerFlow, hcond, hm]
  · cases hm : find_match embs e 0.4 <;> simp [registerFlow, hcond, hm]

/-- Witness for C6 at an empty known list (no match, hence a post). -/
theorem C6_witness :
    (pyStrip "Bob" ≠ "" ∧ pyStrip "7" ≠ "") ∧
    (((registerFlow ["a"] [] (some [1]) "Bob" "7" "t" (fun v => "enc")
        (Except.ok ()) (fun s => none) (Except.ok [])).posts ≠ [] ↔
        find_match [] [1] 0.4 = none) ∧
     registerFlow ["a"] [] (some [1]) "Bob" "7" "t" (fun v => "enc")
        (Except.ok ()) (fun s => none) (Except.ok []) =
      (match find_match [] [1] 0.4 with
       | some idx => ⟨RegOutcome.skipped ((["a"] : List String).getD idx ""), [], [], none⟩
       | none =>
         ⟨RegOutcome.registered,
          [⟨"t", pyStrip "7", pyStrip "Bob", (fun v => "enc") [1]⟩],
          (match (Except.ok () : Except String Unit) with
           | .ok _ => []
           | .error m => ["Upload failed: " ++ m]),
          some (fetch_registered (fun s => none) (Except.ok []))⟩)) :=
  ⟨⟨by decide, by decide⟩,
    C6_register_policy ["a"] [] [1] "Bob" "7" "t" (fun v => "enc")
      (Except.ok ()) (fun s => none) (Except.ok []) (by decide) (by decide)⟩

/-- C7: with a present query embedding, login against an empty known set
yields the distinct EmptyRegistry outcome, which differs from Rejected;
against a non-empty known set a matcher match yields Authenticated with
the matched name and no match yields Rejected. -/
theorem C7_login_spec (names : List String) (k : List ℝ)
    (ks : List (List ℝ)) (e : List ℝ) :
    loginHandler names [] e = LoginOutcome.emptyRegistry ∧
    LoginOutcome.emptyRegistry ≠ LoginOutcome.rejected ∧
    loginHandler names (k :: ks) e =
      (match find_match (k :: ks) e 0.4 with
       | some idx => LoginOutcome.authenticated (names.getD idx "")
       | none => LoginOutcome.rejected) := by
  refine ⟨by simp [loginHandler], by simp, ?_⟩
  simp only [loginHandler, List.isEmpty_cons, Bool.false_eq_true, if_false]

/-- C8: during a fetch, a record whose encoding fails to parse or parses
to a dimension other than 128 is dropped with a warning: the names,
embeddings and full records are exactly those obtained without it, one
extra warning is recorded, and the records after it are still
processed. -/
theorem C8_bad_record_dropped (parse : String → Option (List ℝ))
    (pre post : List Rec) (d : Rec)
    (hbad : parse d.encoding = none ∨
      ∃ v, parse d.encoding = some v ∧ v.length ≠ 128) :
    (processRecords parse (pre ++ d :: post)).names =
      (processRecords parse (pre ++ post)).names ∧
    (processRecords parse (pre ++ d :: post)).embs =
      (processRecords parse (pre ++ post)).embs ∧
    (processRecords parse (pre ++ d :: post)).full =
      (processRecords parse (pre ++ post)).full ∧
    (processRecords parse (pre ++ d :: post)).warnings.length =
      (processRecords parse (pre ++ post)).warnings.length + 1 := by
  obtain ⟨h1, h2, h3, h4⟩ := processRecords_single_dropped parse d hbad
  have e1 : pre ++ d :: post = (pre ++ [d]) ++ post := by simp
  rw [e1]
  refine ⟨?_, ?_, ?_, ?_⟩
  · rw [processRecords_append_names parse (pre ++ [d]) post,
      processRecords_append_names parse pre [d],
      processRecords_append_names parse pre post, h1]
    simp
  · rw [processRecords_append_embs parse (pre ++ [d]) post,
      processRecords_append_embs parse pre [d],
      processRecords_append_embs parse pre post, h2]
    simp
  · rw [processRecords_append_full parse (pre ++ [d]) post,
      processRecords_append_full parse pre [d],
      processRecords_append_full parse pre post, h3]
    simp
  · rw [processRecords_append_warnings parse (pre ++ [d]) post,
      processRecords_append_warnings parse pre [d],
      processRecords_append_warnings parse pre post]
    simp [h4]
    omega

/-- Witness for C8: a record whose encoding parses to the 3-vector
`[1, 2, 3]` is dropped while the record after it is still processed. -/
theorem C8_witness :
    (processRecords (fun s => some [(1 : ℝ), 2, 3])
        ([] ++ (⟨"t", "1", "bad", "1,2,3"⟩ : Rec) :: [⟨"u", "2", "good", "x"⟩])).names =
      (processRecords (fun s => some [(1 : ℝ), 2, 3])
        ([] ++ [⟨"u", "2", "good", "x"⟩])).names ∧
    (processRecords (fun s => some [(1 : ℝ), 2, 3])
        ([] ++ (⟨"t", "1", "bad", "1,2,3"⟩ : Rec) :: [⟨"u", "2", "good", "x"⟩])).embs =
      (processRecords (fun s => some [(1 : ℝ), 2, 3])
        ([] ++ [⟨"u", "2", "good", "x"⟩])).embs ∧
    (processRecords (fun s => some [(1 : ℝ), 2, 3])
        ([] ++ (⟨"t", "1", "bad", "1,2,3"⟩ : Rec) :: [⟨"u", "2", "good", "x"⟩])).full =
      (processRecords (fun s => some [(1 : ℝ), 2, 3])
        ([] ++ [⟨"u", "2", "good", "x"⟩])).full ∧
    (processRecords (fun s => some [(1 : ℝ), 2, 3])
        ([] ++ (⟨"t", "1", "bad", "1,2,3"⟩ : Rec) :: [⟨"u", "2", "good", "x"⟩])).warnings.length =
      (processRecords (fun s => some [(1 : ℝ), 2, 3])
        ([] ++ [⟨"u", "2", "good", "x"⟩])).warnings.length + 1 :=
  C8_bad_record_dropped (fun s => some [(1 : ℝ), 2, 3]) []
    [⟨"u", "2", "good", "x"⟩] ⟨"t", "1", "bad", "1,2,3"⟩
    (Or.inr ⟨[(1 : ℝ), 2, 3], rfl, by simp⟩)

/-- C10: a returned match index is always within the fetched embeddings
list, and a fetch produces names and embeddings lists of equal length
(built in lockstep), so the `names_known[match_idx]` lookups performed by
the register and login handlers are in bounds. -/
theorem C10_match_index_inbounds (parse : String → Option (List ℝ))
    (resp : Except String (List Rec)) (e : List ℝ) (th : ℝ) (i : ℕ)
    (h : find_match (fetch_registered parse resp).embs e th = some i) :
    i < (fetch_registered parse resp).names.length ∧
    (fetch_registered parse resp).names.length =
      (fetch_registered parse resp).embs.length := by
  have hlen : (fetch_registered parse resp).names.length =
      (fetch_registered parse resp).embs.length := by
    cases resp with
    | ok data =>
      simpa [fetch_registered] using processRecords_names_length_eq_embs parse data
    | error m => rfl
  have hb := ((find_match_some_iff _ e th i).mp h).1
  exact ⟨by rw [hlen]; exact hb, hlen⟩

/-- Witness for C10: a fetch admitting one 128-dimensional record, matched
by its own embedding. -/
theorem C10_witness :
    0 < (fetch_registered
        (fun s => if s = "E" then some (List.replicate 128 (1 : ℝ)) else none)
        (Except.ok [⟨"t", "1", "a", "E"⟩])).names.length ∧
    (fetch_registered
        (fun s => if s = "E" then some (List.replicate 128 (1 : ℝ)) else none)
        (Except.ok [⟨"t", "1", "a", "E"⟩])).names.length =
      (fetch_registered
        (fun s => if s = "E" then some (List.replicate 128 (1 : ℝ)) else none)
        (Except.ok [⟨"t", "1", "a", "E"⟩])).embs.length := by
  have hembs : (fetch_registered
      (fun s => if s = "E" then some (List.replicate 128 (1 : ℝ)) else none)
      (Except.ok [⟨"t", "1", "a", "E"⟩])).embs = [List.replicate 128 (1 : ℝ)] := by
    simp [fetch_registered, processRecords]
  have hcs : cosineSim (List.replicate 128 (1 : ℝ)) (List.replicate 128 (1 : ℝ)) = 1 := by
    apply cosineSim_self
    rw [dot_replicate_one]
    norm_num
  have hfm : find_match (fetch_registered
      (fun s => if s = "E" then some (List.replicate 128 (1 : ℝ)) else none)
      (Except.ok [⟨"t", "1", "a", "E"⟩])).embs (List.replicate 128 (1 : ℝ)) (2 / 5) =
      some 0 := by
    rw [hembs]
    have hsims : simsOf [List.replicate 128 (1 : ℝ)] (List.replicate 128 (1 : ℝ)) = [1] := by
      rw [show ([List.replicate 128 (1 : ℝ)] : List (List ℝ)) =
        List.replicate 128 (1 : ℝ) :: [] from rfl, simsOf_cons, hcs]
      simp [simsOf]
    rw [find_match_cons, hsims]
    norm_num [argmaxIdx]
  exact C10_match_index_inbounds
    (fun s => if s = "E" then some (List.replicate 128 (1 : ℝ)) else none)
    (Except.ok [⟨"t", "1", "a", "E"⟩]) (List.replicate 128 (1 : ℝ)) (2 / 5) 0 hfm

/-- C9: registration is idempotent by identity.  If the first call (against
the fetch of `data`) finds no match, it yields Registered and posts the
row serializing `e`; the second call with any name and id text, run against
the re-fetched store that now holds that row, yields Skipped — provided
the parser inverts the serializer on `e`, the embedding has the admitted
dimension 128 and a nonzero self-dot-product. -/
theorem C9_idempotent_by_identity
    (data : List Rec) (parse : String → Option (List ℝ))
    (ser : List ℝ → String) (e : List ℝ)
    (name1 sid1 now1 name2 sid2 now2 : String)
    (post2 : Except String Unit) (refetch2 : Except String (List Rec))
    (hrt : parse (ser e) = some e) (hlen : e.length = 128)
    (hnz : dot e e ≠ 0)
    (hn1 : pyStrip name1 ≠ "") (hs1 : pyStrip sid1 ≠ "")
    (hn2 : pyStrip name2 ≠ "") (hs2 : pyStrip sid2 ≠ "")
    (hnm : find_match (fetch_registered parse (Except.ok data)).embs e 0.4 = none) :
    (registerFlow (fetch_registered parse (Except.ok data)).names
        (fetch_registered parse (Except.ok data)).embs (some e) name1 sid1 now1
        ser (Except.ok ()) parse
        (Except.ok (data ++ [⟨now1, pyStrip sid1, pyStrip name1, ser e⟩]))).outcome =
      RegOutcome.registered ∧
    (registerFlow (fetch_registered parse (Except.ok data)).names
        (fetch_registered parse (Except.ok data)).embs (some e) name1 sid1 now1
        ser (Except.ok ()) parse
        (Except.ok (data ++ [⟨now1, pyStrip sid1, pyStrip name1, ser e⟩]))).posts =
      [⟨now1, pyStrip sid1, pyStrip name1, ser e⟩] ∧
    ((registerFlow
        (fetch_registered parse
          (Except.ok (data ++ [⟨now1, pyStrip sid1, pyStrip name1, ser e⟩]))).names
        (fetch_registered parse
          (Except.ok (data ++ [⟨now1, pyStrip sid1, pyStrip name1, ser e⟩]))).embs
        (some e) name2 sid2 now2 ser post2 parse refetch2).outcome).isSkipped =
      true := by
  have hcond1 : ¬(pyStrip name1 = "" ∨ pyStrip sid1 = "") := by
    rintro (h | h)
    exacts [hn1 h, hs1 h]
  have hcond2 : ¬(pyStrip name2 = "" ∨ pyStrip sid2 = "") := by
    rintro (h | h)
    exacts [hn2 h, hs2 h]
  refine ⟨?_, ?_, ?_⟩
  · simp [registerFlow, hcond1, hnm]
  · simp [registerFlow, hcond1, hnm]
  · have hrowenc : parse (Rec.mk now1 (pyStrip sid1) (pyStrip name1)
        (ser e)).encoding = some e := hrt
    have hembs2 : (fetch_registered parse
        (Except.ok (data ++ [⟨now1, pyStrip sid1, pyStrip name1, ser e⟩]))).embs =
        (processRecords parse data).embs ++ [e] := by
      simp [fetch_registered, processRecords_append_embs,
        processRecords_single_ok parse _ e hrowenc hlen]
    obtain ⟨j, hj, hge⟩ := find_match_of_present
      ((processRecords parse data).embs ++ [e]) e 0.4
      (processRecords parse data).embs.length (by simp)
      (getD_append_self _ _) hnz (by norm_num)
    have hfm : find_match (fetch_registered parse
        (Except.ok (data ++ [⟨now1, pyStrip sid1, pyStrip name1, ser e⟩]))).embs
        e 0.4 = some j := by
      rw [hembs2]
      exact hj
    simp [registerFlow, hcond2, hfm, RegOutcome.isSkipped]

/-- Witness for C9: one registration of the all-ones 128-vector against an
empty store, then a second registration of the same vector under a
different name against the re-fetched store. -/
theorem C9_witness :
    (registerFlow (fetch_registered
          (fun s => if s = "E" then some (List.replicate 128 (1 : ℝ)) else none)
          (Except.ok [])).names
        (fetch_registered
          (fun s => if s = "E" then some (List.replicate 128 (1 : ℝ)) else none)
          (Except.ok [])).embs
        (some (List.replicate 128 (1 : ℝ))) "A" "1" "t1"
        (fun v => "E") (Except.ok ())
        (fun s => if s = "E" then some (List.replicate 128 (1 : ℝ)) else none)
        (Except.ok ([] ++ [⟨"t1", pyStrip "1", pyStrip "A",
          (fun v => "E") (List.replicate 128 (1 : ℝ))⟩]))).outcome =
      RegOutcome.registered ∧
    (registerFlow (fetch_registered
          (fun s => if s = "E" then some (List.replicate 128 (1 : ℝ)) else none)
          (Except.ok [])).names
        (fetch_registered
          (fun s => if s = "E" then some (List.replicate 128 (1 : ℝ)) else none)
          (Except.ok [])).embs
        (some (List.replicate 128 (1 : ℝ))) "A" "1" "t1"
        (fun v => "E") (Except.ok ())
        (fun s => if s = "E" then some (List.replicate 128 (1 : ℝ)) else none)
        (Except.ok ([] ++ [⟨"t1", pyStrip "1", pyStrip "A",
          (fun v => "E") (List.replicate 128 (1 : ℝ))⟩]))).posts =
      [⟨"t1", pyStrip "1", pyStrip "A",
        (fun v => "E") (List.replicate 128 (1 : ℝ))⟩] ∧
    ((registerFlow
        (fetch_registered
          (fun s => if s = "E" then some (List.replicate 128 (1 : ℝ)) else none)
          (Except.ok ([] ++ [⟨"t1", pyStrip "1", pyStrip "A",
            (fun v => "E") (List.replicate 128 (1 : ℝ))⟩]))).names
        (fetch_registered
          (fun s => if s = "E" then some (List.replicate 128 (1 : ℝ)) else none)
          (Except.ok ([] ++ [⟨"t1", pyStrip "1", pyStrip "A",
            (fun v => "E") (List.replicate 128 (1 : ℝ))⟩]))).embs
        (some (List.replicate 128 (1 : ℝ))) "B" "2" "t2" (fun v => "E")
        (Except.ok ()) (fun s => if s = "E" then some (List.replicate 128 (1 : ℝ)) else none)
        (Except.ok [])).outcome).isSkipped = true :=
  C9_idempotent_by_identity []
    (fun s => if s = "E" then some (List.replicate 128 (1 : ℝ)) else none)
    (fun v => "E") (List.replicate 128 (1 : ℝ)) "A" "1" "t1" "B" "2" "t2"
    (Except.ok ()) (Except.ok [])
    (by simp) (by simp)
    (by rw [dot_replicate_one]; norm_num)
    (by decide) (by decide) (by decide) (by decide)
    (by simp [fetch_registered, processRecords, find_match_nil])

/-- C1: the code contradicts the claim at this input.  With a valid
registration (embedding `[1]`, name "Alice", id "1", no existing match)
whose store append fails with cause "boom", the handler shows one
upload-failure error carrying the cause and makes exactly one post
attempt (no retry), yet its displayed outcome is still Registered. -/
theorem C1_store_failure_still_registered :
    (registerFlow [] [] (some [1]) "Alice" "1" "t" (fun v => "enc")
        (Except.error "boom") (fun s => none) (Except.ok [])).outcome =
      RegOutcome.registered ∧
    (registerFlow [] [] (some [1]) "Alice" "1" "t" (fun v => "enc")
        (Except.error "boom") (fun s => none) (Except.ok [])).uploadErrors =
      ["Upload failed: boom"] ∧
    (registerFlow [] [] (some [1]) "Alice" "1" "t" (fun v => "enc")
        (Except.error "boom") (fun s => none) (Except.ok [])).posts.length =
      1 := by
  have hcond : ¬(pyStrip "Alice" = "" ∨ pyStrip "1" = "") := by decide
  refine ⟨?_, ?_, ?_⟩ <;> simp [registerFlow, hcond, find_match_nil]

/-- C2 counterexample: with a prior KnownSet holding "alice", a failed
refresh does not leave the prior state unchanged — the refresh completes
and the names list held afterwards is empty, not the prior one. -/
theorem C2_cex :
    (refreshKnown (fun s => none) (Except.error "down")
        ⟨["alice"], [[1]], [⟨"t", "1", "alice", "E"⟩], [], none⟩).names = [] ∧
    (refreshKnown (fun s => none) (Except.error "down")
        ⟨["alice"], [[1]], [⟨"t", "1", "alice", "E"⟩], [], none⟩).names ≠
      ["alice"] := by
  constructor <;> simp [refreshKnown, fetch_registered]

/-- C2 (amended): a store-level error surfaces exactly one error message
and is not retried, but prior state is not preserved: a failed fetch
completes the refresh with the empty KnownSet in place of the previously
held one, and a failed append does not abort registration — the handler
still reports success. -/
theorem C2_store_error_surfaced (parse : String → Option (List ℝ))
    (prior : FetchResult) (m : String) (names : List String)
    (embs : List (List ℝ)) (e : List ℝ) (name sid now : String)
    (ser : List ℝ → String) (refetch : Except String (List Rec))
    (hn : pyStrip name ≠ "") (hs : pyStrip sid ≠ "")
    (hnm : find_match embs e 0.4 = none) :
    (refreshKnown parse (Except.error m) prior).errorMsg =
      some ("Failed to fetch registered users: " ++ m) ∧
    (refreshKnown parse (Except.error m) prior).names = [] ∧
    (refreshKnown parse (Except.error m) prior).embs = [] ∧
    (registerFlow names embs (some e) name sid now ser (Except.error m)
        parse refetch).uploadErrors = ["Upload failed: " ++ m] ∧
    (registerFlow names embs (some e) name sid now ser (Except.error m)
        parse refetch).outcome = RegOutcome.registered := by
  have hcond : ¬(pyStrip name = "" ∨ pyStrip sid = "") := by
    rintro (h | h)
    exacts [hn h, hs h]
  refine ⟨rfl, rfl, rfl, ?_, ?_⟩ <;> simp [registerFlow, hcond, hnm]

/-- Witness for C2 (amended) at a concrete failed fetch and failed
append. -/
theorem C2_witness :
    (refreshKnown (fun s => none) (Except.error "down")
        ⟨["bob"], [[1]], [], [], none⟩).errorMsg =
      some ("Failed to fetch registered users: " ++ "down") ∧
    (refreshKnown (fun s => none) (Except.error "down")
        ⟨["bob"], [[1]], [], [], none⟩).names = [] ∧
    (refreshKnown (fun s => none) (Except.error "down")
        ⟨["bob"], [[1]], [], [], none⟩).embs = [] ∧
    (registerFlow ["bob"] [] (some [1]) "Cara" "3" "t" (fun v => "enc")
        (Except.error "down") (fun s => none) (Except.ok [])).uploadErrors =
      ["Upload failed: " ++ "down"] ∧
    (registerFlow ["bob"] [] (some [1]) "Cara" "3" "t" (fun v => "enc")
        (Except.error "down") (fun s => none) (Except.ok [])).outcome =
      RegOutcome.registered :=
  C2_store_error_surfaced (fun s => none) ⟨["bob"], [[1]], [], [], none⟩
    "down" ["bob"] [] [1] "Cara" "3" "t" (fun v => "enc") (Except.ok [])
    (by decide) (by decide) (find_match_nil [1] 0.4)

end StudentFace
